import Mathlib

/-!
Shallow embedding of the ConfigStore component of the repository:
`app/services/config_service.py` (class `ConfigService`) and
`app/services/crypto_service.py` (class `CryptoService`).

The in-memory configuration document (`self._config`, produced by
`json.load`) is modelled by the inductive type `Json`.  Python statements
that can raise are modelled in the `Except PyErr` monad; a constructor of
`PyErr` records which Python exception class is raised.  Python `dict`s
(as produced by `json.load`: string keys, insertion ordered) are modelled
as association lists with unique keys; `d[k] = v` updates the existing
binding in place or appends a new one, exactly as a Python dict does.
-/

/-- JSON-compatible Python values: the value space of the configuration
document. Numbers are modelled as integers (the document stores only
integers and booleans besides strings, lists and dicts). -/
inductive Json where
  | null
  | bool (b : Bool)
  | num (n : Int)
  | str (s : String)
  | arr (elts : List Json)
  | obj (fields : List (String × Json))

/-- Python exception classes that the modelled code can raise. -/
inductive PyErr where
  | typeError
  | attributeError
  | keyError
  | permissionError
  deriving DecidableEq, Repr

/-- Lookup `d[k]` on a dict modelled as an association list. -/
def lookupField : List (String × Json) → String → Option Json
  | [], _ => none
  | (k, v) :: rest, key => if k = key then some v else lookupField rest key

/-- Assignment `d[k] = v` on a Python dict: replaces the existing binding
in place (keeping its position) or appends a new binding at the end. -/
def setField : List (String × Json) → String → Json → List (String × Json)
  | [], key, v => [(key, v)]
  | (k, w) :: rest, key, v =>
      if k = key then (k, v) :: rest else (k, w) :: setField rest key v

/-- Deletion `del d[k]` on a Python dict (the key is present at most once). -/
def eraseField : List (String × Json) → String → List (String × Json)
  | [], _ => []
  | (k, w) :: rest, key =>
      if k = key then rest else (k, w) :: eraseField rest key

/-- Key-membership test `k in d` on a dict. -/
def containsField (fields : List (String × Json)) (key : String) : Bool :=
  (lookupField fields key).isSome

/-- Python truthiness of a JSON value, as used by `if value:` tests. -/
def pyTruthy : Json → Bool
  | .null => false
  | .bool b => b
  | .num n => n != 0
  | .str s => s ≠ ""
  | .arr l => !l.isEmpty
  | .obj f => !f.isEmpty

/-- Whether the first character list is a prefix of the second. -/
def charsPrefix : List Char → List Char → Bool
  | [], _ => true
  | _ :: _, [] => false
  | a :: as, b :: bs => a == b && charsPrefix as bs

/-- Whether the first character list occurs contiguously in the second. -/
def charsSub (n : List Char) : List Char → Bool
  | [] => charsPrefix n []
  | c :: t => charsPrefix n (c :: t) || charsSub n t

/-- Python substring test `n in h` for strings. -/
def strSub (n h : String) : Bool := charsSub n.data h.data

/-- Python membership `key in container` for a string `key`:
dict membership checks keys; list membership compares with `==`, which for
a string needle holds only at an equal string element; string membership
is the substring test; `in` on a number, boolean or `None` raises
`TypeError` (argument not iterable). -/
def pyIn (key : String) : Json → Except PyErr Bool
  | .obj fields => .ok (containsField fields key)
  | .arr l => .ok (l.any fun e => match e with | .str q => q = key | _ => false)
  | .str s => .ok (strSub key s)
  | _ => .error .typeError

/-- Python `len(container)`: defined for strings, lists and dicts, raises
`TypeError` otherwise. -/
def pyLen : Json → Except PyErr Nat
  | .str s => .ok s.length
  | .arr l => .ok l.length
  | .obj f => .ok f.length
  | _ => .error .typeError

/-- `ConfigService.get` after splitting the key: walks the document
segment by segment; any missing segment, or an intermediate value that is
not a dict, returns the default.  Mirrors the
`isinstance(value, dict) and k in value` guard, so it never raises. -/
def pyGet : Json → List String → Json → Json
  | v, [], _ => v
  | .obj fields, k :: rest, d =>
      match lookupField fields k with
      | some v => pyGet v rest d
      | none => d
  | _, _ :: _, d => d

/-- `ConfigService.set` after splitting the key.  The loop
`for k in keys[:-1]` creates a fresh `{}` for a missing segment and then
descends; descending into (or assigning at) a value that is not a dict
raises `TypeError` (string/list subscripted or assigned with a string
key, or `in` applied to a non-iterable), leaving the document unchanged
because no mutation precedes the first non-dict encountered. -/
def pySet : Json → List String → Json → Except PyErr Json
  | _, [], _ => .error .typeError
  | doc, [k], v =>
      match doc with
      | .obj fields => .ok (.obj (setField fields k v))
      | _ => .error .typeError
  | doc, k :: k2 :: rest, v =>
      match doc with
      | .obj fields =>
          match lookupField fields k with
          | some child =>
              (pySet child (k2 :: rest) v).map fun child2 =>
                .obj (setField fields k child2)
          | none =>
              (pySet (.obj []) (k2 :: rest) v).map fun child2 =>
                .obj (setField fields k child2)
      | _ => .error .typeError

/-- `ConfigService.remove` after splitting the key.  Returns the updated
document and whether a deletion happened (the source persists only in
that case).  The loop returns early (no-op) when an intermediate key is
absent; membership on a non-iterable raises `TypeError`, as does
subscripting or `del` on a non-dict container. -/
def pyRemove : Json → List String → Except PyErr (Json × Bool)
  | doc, [] => .ok (doc, false)
  | doc, [k] => do
      let present ← pyIn k doc
      if present then
        match doc with
        | .obj fields => .ok (.obj (eraseField fields k), true)
        | _ => .error .typeError
      else
        .ok (doc, false)
  | doc, k :: k2 :: rest => do
      let present ← pyIn k doc
      if present then
        match doc with
        | .obj fields =>
            match lookupField fields k with
            | some child =>
                (pyRemove child (k2 :: rest)).map fun r =>
                  (Json.obj (setField fields k r.1), r.2)
            | none => .ok (doc, false)
        | _ => .error .typeError
      else
        .ok (doc, false)

/-- Whether the dotted path resolves to a value in the document (every
segment present, every intermediate a dict). -/
def pathPresent : Json → List String → Bool
  | _, [] => true
  | .obj fields, k :: rest =>
      match lookupField fields k with
      | some v => pathPresent v rest
      | none => false
  | _, _ :: _ => false

/-- Condition on a dotted path: the document is a dict and every
intermediate segment of the path is either absent or bound to a dict.
Sufficient for `pySet` and `pyRemove` to complete without raising. -/
def objPathOk : Json → List String → Bool
  | .obj _, [] => true
  | .obj _, [_] => true
  | .obj fields, k :: k2 :: rest =>
      match lookupField fields k with
      | some v => objPathOk v (k2 :: rest)
      | none => true
  | _, _ => false

/-- Accumulator pass of `str.split`: cut the character stream at every
separator occurrence. -/
def splitCharsAux : List Char → List Char → List String
  | [], acc => [String.mk acc.reverse]
  | c :: rest, acc =>
      if c = '.' then String.mk acc.reverse :: splitCharsAux rest []
      else splitCharsAux rest (c :: acc)

/-- Python `key.split(".")`: always a non-empty list of segments
(`"".split(".") == [""]`). -/
def splitKey (s : String) : List String :=
  splitCharsAux s.data []

/-- Contract of the external authenticated-encryption primitive
(`cryptography.fernet.Fernet` keyed with the machine-derived key, see
`CryptoService._derive_key`): `enc` produces a token, `dec` returns the
plaintext or `none` for an invalid token (`InvalidToken`).  The two laws
are the library's documented behaviour: decrypting a token produced
under the same key yields the original plaintext, and a token is never
the empty string. -/
structure Fernet where
  enc : String → String
  dec : String → Option String
  dec_enc : ∀ s, dec (enc s) = some s
  enc_ne : ∀ s, enc s ≠ ""

/-- Contract of the external text coding (`base64.urlsafe_b64encode` /
`urlsafe_b64decode` plus UTF-8 `encode`/`decode`): `decode` returns
`none` when the input is rejected (`binascii.Error`).  The laws are the
library's documented behaviour: decoding an encoded string returns it,
and encoding a non-empty string is non-empty. -/
structure B64 where
  encode : String → String
  decode : String → Option String
  decode_encode : ∀ s, decode (encode s) = some s
  encode_ne : ∀ s, s ≠ "" → encode s ≠ ""

/-- `CryptoService.encrypt`: empty input short-circuits to `""` before
any cipher use; otherwise the Fernet token of the input, base64-coded. -/
def cryptoEncrypt (f : Fernet) (b : B64) (data : String) : String :=
  if data = "" then "" else b.encode (f.enc data)

/-- `CryptoService.decrypt`: empty input short-circuits to `""`; a
coding failure or an invalid token is caught and yields `""`. -/
def cryptoDecrypt (f : Fernet) (b : B64) (ed : String) : String :=
  if ed = "" then ""
  else
    match b.decode ed with
    | none => ""
    | some d =>
        match f.dec d with
        | none => ""
        | some s => s

/-- `self.crypto.encrypt(v)` applied to an arbitrary JSON value: a
non-string argument either fails the truthiness guard or raises
`AttributeError` at `data.encode()`, which the broad `except` inside
`encrypt` converts to `""`. -/
def encryptJson (f : Fernet) (b : B64) : Json → String
  | .str s => cryptoEncrypt f b s
  | _ => ""

/-- `self.crypto.decrypt(v)` applied to an arbitrary JSON value; as for
`encryptJson`, non-strings come back as `""`. -/
def decryptJson (f : Fernet) (b : B64) : Json → String
  | .str s => cryptoDecrypt f b s
  | _ => ""

/-- `ConfigService.SECURE_KEYS`. -/
def SECURE_KEYS : List String := ["api_token", "google_password"]

/-- Pure effect on a dict of one iteration of the `_save_config` loop:
a present, truthy value under `key` is rebound to its encryption. -/
def encryptFields (f : Fernet) (b : B64) (fields : List (String × Json)) (key : String) : List (String × Json) :=
  match lookupField fields key with
  | some v =>
      if pyTruthy v then setField fields key (.str (encryptJson f b v)) else fields
  | none => fields

/-- Pure effect on a dict of one iteration of the `_load_config` loop:
a present, truthy value under `key` is rebound to its decryption, or to
`""` when decryption fails. -/
def decryptFields (f : Fernet) (b : B64) (fields : List (String × Json)) (key : String) : List (String × Json) :=
  match lookupField fields key with
  | some v =>
      if pyTruthy v then
        if decryptJson f b v ≠ "" then setField fields key (.str (decryptJson f b v))
        else setField fields key (.str "")
      else fields
  | none => fields

/-- Body of the per-key loop in `_save_config`: when the key is present
with a truthy value, rebind it to its encryption.  Membership on a
non-iterable document, or subscripting a string/list document with the
string key, raises `TypeError`. -/
def encryptStep (f : Fernet) (b : B64) (doc : Json) (key : String) : Except PyErr Json := do
  let present ← pyIn key doc
  if present then
    match doc with
    | .obj fields =>
        let v := (lookupField fields key).getD .null
        if pyTruthy v then
          .ok (.obj (setField fields key (.str (encryptJson f b v))))
        else
          .ok doc
    | _ => .error .typeError
  else
    .ok doc

/-- Body of the per-key loop in `_load_config`: when the key is present
with a truthy value, rebind it to its decryption, or to `""` when
decryption fails. -/
def decryptStep (f : Fernet) (b : B64) (doc : Json) (key : String) : Except PyErr Json := do
  let present ← pyIn key doc
  if present then
    match doc with
    | .obj fields =>
        let v := (lookupField fields key).getD .null
        if pyTruthy v then
          let decrypted := decryptJson f b v
          if decrypted ≠ "" then
            .ok (.obj (setField fields key (.str decrypted)))
          else
            .ok (.obj (setField fields key (.str "")))
        else
          .ok doc
    | _ => .error .typeError
  else
    .ok doc

/-- Transform applied by `_save_config` before serialisation: a shallow
copy of the document with each present, truthy secure field replaced by
its encryption. -/
def saveTransform (f : Fernet) (b : B64) (doc : Json) : Except PyErr Json :=
  SECURE_KEYS.foldlM (encryptStep f b) doc

/-- `_save_config`, with the filesystem write abstracted as a fallible
`write` action.  The whole body sits in `try/except Exception` that only
prints, so every failure -- including a `PermissionError` raised while
opening or writing the backing file -- is swallowed and the method
returns normally. -/
def saveConfig (f : Fernet) (b : B64) (write : Json → Except PyErr Unit) (doc : Json) : Except PyErr Unit :=
  match (do
    let saved ← saveTransform f b doc
    write saved : Except PyErr Unit) with
  | .ok _ => .ok ()
  | .error _ => .ok ()

/-- Decryption pass of `_load_config` over a freshly parsed document. -/
def loadTransform (f : Fernet) (b : B64) (doc : Json) : Except PyErr Json :=
  SECURE_KEYS.foldlM (decryptStep f b) doc

/-- `_load_config` when the backing file exists: `none` stands for file
contents that `json.load` rejects; any failure inside the `try` block
(parse failure or a `TypeError` from the secure-key loop) is caught and
leaves the in-memory document `{}`. -/
def loadConfig (f : Fernet) (b : B64) (parsed : Option Json) : Json :=
  match parsed with
  | none => .obj []
  | some doc =>
      match loadTransform f b doc with
      | .ok d => d
      | .error _ => .obj []

namespace ConfigService

/-- `ConfigService.get(key, default)`. -/
def get (doc : Json) (key : String) (default : Json) : Json :=
  pyGet doc (splitKey key) default

/-- In-memory effect of `ConfigService.set(key, value)`.  The trailing
`self._save_config()` never raises and never changes `self._config`
(see `saveConfig`), so the mutating operations below are modelled by
their in-memory effect; `setAndSave` composes the persist step back in. -/
def set (doc : Json) (key : String) (v : Json) : Except PyErr Json :=
  pySet doc (splitKey key) v

/-- `ConfigService.set(key, value)` including the persist step, for
reasoning about propagation of filesystem errors on the final write. -/
def setAndSave (f : Fernet) (b : B64) (write : Json → Except PyErr Unit) (doc : Json) (key : String) (v : Json) : Except PyErr Json := do
  let doc2 ← set doc key v
  let _ ← saveConfig f b write doc2
  .ok doc2

/-- `ConfigService.remove(key)`: the document after removal and whether a
deletion (hence a persist) happened. -/
def remove (doc : Json) (key : String) : Except PyErr (Json × Bool) :=
  pyRemove doc (splitKey key)

/-- `ConfigService.get_secure(key)`. -/
def get_secure (doc : Json) (key : String) : Json :=
  get doc key (.str "")

/-- `ConfigService.set_secure(key, value)`. -/
def set_secure (doc : Json) (key : String) (v : String) : Except PyErr Json :=
  set doc key (.str v)

/-- `ConfigService.get_prompts()`. -/
def get_prompts (doc : Json) : Json :=
  get doc "prompts" (.arr [])

/-- `ConfigService.add_prompt(prompt)`: a no-op for an empty or duplicate
prompt (`if prompt and prompt not in prompts:` short-circuits), otherwise
appends and stores the list (in the source the retrieved list aliases the
stored one, so append-then-set leaves the document holding the appended
list). `.append` on a non-list raises `AttributeError`. -/
def add_prompt (doc : Json) (p : String) : Except PyErr Json :=
  let prompts := get_prompts doc
  if p = "" then .ok doc
  else do
    let dup ← pyIn p prompts
    if dup then .ok doc
    else
      match prompts with
      | .arr l => set doc "prompts" (.arr (l ++ [.str p]))
      | _ => .error .attributeError

/-- `ConfigService.remove_prompt(index)`: an out-of-range index is a
no-op (`if 0 <= index < len(prompts):`, chained comparison, so a negative
index short-circuits before `len`); in range, `.pop(index)` removes the
element (on a string it raises `AttributeError`, on a dict `KeyError`). -/
def remove_prompt (doc : Json) (i : Int) : Except PyErr Json :=
  let prompts := get_prompts doc
  if 0 ≤ i then do
    let n ← pyLen prompts
    if i < (n : Int) then
      match prompts with
      | .arr l => set doc "prompts" (.arr (l.eraseIdx i.toNat))
      | .str _ => .error .attributeError
      | _ => .error .keyError
    else
      .ok doc
  else
    .ok doc

/-- `ConfigService.clear_prompts()`. -/
def clear_prompts (doc : Json) : Except PyErr Json :=
  set doc "prompts" (.arr [])

/-- `ConfigService.add_generation(generation)`: reads the recent list
(default `[]`), inserts at index 0, truncates to the first 50 and stores
the result; `.insert` on a non-list raises `AttributeError`. -/
def add_generation (doc : Json) (g : Json) : Except PyErr Json :=
  match get doc "recent_generations" (.arr []) with
  | .arr recent => set doc "recent_generations" (.arr ((g :: recent).take 50))
  | _ => .error .attributeError

/-- Iterated `add_generation` over a list of records, oldest first. -/
def addGenerations (doc : Json) (gs : List Json) : Except PyErr Json :=
  gs.foldlM add_generation doc

/-- Field list of the default configuration dict, with
`DEFAULT_TIMEOUT = 120` and `DEFAULT_DELAY = 5` from `app/constants.py`. -/
def defaultFields : List (String × Json) := [
  ("api_token", .str ""),
  ("google_email", .str ""),
  ("google_password", .str ""),
  ("prompts", .arr []),
  ("settings", .obj [
    ("timeout", .num 120),
    ("delay", .num 5),
    ("headless", .bool false),
    ("theme", .str "dark"),
    ("auto_sync_credits", .bool true)]),
  ("recent_generations", .arr [])]

/-- `ConfigService._get_defaults()`. -/
def get_defaults : Json := .obj defaultFields

end ConfigService

/-- Concrete authenticated-encryption instance used by witnesses and
counterexamples: prepend a marker character; decryption rejects any
input that lacks it. -/
def fernetX : Fernet where
  enc s := String.mk ('x' :: s.data)
  dec s :=
    match s.data with
    | 'x' :: rest => some (String.mk rest)
    | _ => none
  dec_enc s := by cases s; rfl
  enc_ne s := by cases s; intro h; exact List.noConfusion (congrArg String.data h)

/-- Concrete coding instance used by witnesses and counterexamples: the
identity coding. -/
def b64Id : B64 where
  encode s := s
  decode s := some s
  decode_encode _ := rfl
  encode_ne _ h := h

/-- Second concrete authenticated-encryption instance (a different
machine-derived key): uses a different marker, so it rejects every token
produced by `fernetX`. -/
def fernetY : Fernet where
  enc s := String.mk ('y' :: s.data)
  dec s :=
    match s.data with
    | 'y' :: rest => some (String.mk rest)
    | _ => none
  dec_enc s := by cases s; rfl
  enc_ne s := by cases s; intro h; exact List.noConfusion (congrArg String.data h)

/-- Filesystem write that always fails with `PermissionError`. -/
def writeDenied : Json → Except PyErr Unit := fun _ => .error .permissionError

/-! ## Helper lemmas -/

theorem lookup_setField_self (F : List (String × Json)) (k : String) (v : Json) :
    lookupField (setField F k v) k = some v := by
  induction F with
  | nil => simp [setField, lookupField]
  | cons p rest ih =>
      obtain ⟨k2, w⟩ := p
      by_cases h : k2 = k <;> simp [setField, lookupField, h, ih]

theorem lookup_setField_ne (F : List (String × Json)) (k j : String) (v : Json)
    (h : j ≠ k) : lookupField (setField F k v) j = lookupField F j := by
  induction F with
  | nil => simp [setField, lookupField, Ne.symm h]
  | cons p rest ih =>
      obtain ⟨k2, w⟩ := p
      by_cases h2 : k2 = k
      · subst h2
        simp [setField, lookupField, Ne.symm h]
      · simp [setField, lookupField, h2, ih]

theorem pyGet_single (F : List (String × Json)) (k : String) (d : Json) :
    pyGet (.obj F) [k] d = (lookupField F k).getD d := by
  cases h : lookupField F k <;> simp [pyGet, h]

theorem splitCharsAux_ne_nil (cs acc : List Char) : splitCharsAux cs acc ≠ [] := by
  induction cs generalizing acc with
  | nil => simp [splitCharsAux]
  | cons c rest ih => by_cases h : c = '.' <;> simp [splitCharsAux, h, ih]

theorem splitKey_ne_nil (s : String) : splitKey s ≠ [] :=
  splitCharsAux_ne_nil s.data []

theorem encryptStep_obj (f : Fernet) (b : B64) (F : List (String × Json)) (k : String) :
    encryptStep f b (.obj F) k = .ok (.obj (encryptFields f b F k)) := by
  cases h : lookupField F k with
  | none => simp [encryptStep, pyIn, containsField, encryptFields, h, Bind.bind, Except.bind]
  | some v =>
      by_cases ht : pyTruthy v <;>
        simp [encryptStep, pyIn, containsField, encryptFields, h, ht, Bind.bind, Except.bind]

theorem decryptStep_obj (f : Fernet) (b : B64) (F : List (String × Json)) (k : String) :
    decryptStep f b (.obj F) k = .ok (.obj (decryptFields f b F k)) := by
  cases h : lookupField F k with
  | none => simp [decryptStep, pyIn, containsField, decryptFields, h, Bind.bind, Except.bind]
  | some v =>
      by_cases ht : pyTruthy v
      · by_cases hd : decryptJson f b v = "" <;>
          simp [decryptStep, pyIn, containsField, decryptFields, h, ht, hd, Bind.bind, Except.bind]
      · simp [decryptStep, pyIn, containsField, decryptFields, h, ht, Bind.bind, Except.bind]

theorem saveTransform_obj (f : Fernet) (b : B64) (F : List (String × Json)) :
    saveTransform f b (.obj F) =
      .ok (.obj (encryptFields f b (encryptFields f b F "api_token") "google_password")) := by
  simp [saveTransform, SECURE_KEYS, List.foldlM_cons, List.foldlM_nil, encryptStep_obj, Bind.bind, Except.bind, Pure.pure, Except.pure]

theorem loadTransform_obj (f : Fernet) (b : B64) (F : List (String × Json)) :
    loadTransform f b (.obj F) =
      .ok (.obj (decryptFields f b (decryptFields f b F "api_token") "google_password")) := by
  simp [loadTransform, SECURE_KEYS, List.foldlM_cons, List.foldlM_nil, decryptStep_obj, Bind.bind, Except.bind, Pure.pure, Except.pure]

theorem cryptoEncrypt_ne (f : Fernet) (b : B64) (s : String) (h : s ≠ "") :
    cryptoEncrypt f b s ≠ "" := by
  simpa [cryptoEncrypt, h] using b.encode_ne _ (f.enc_ne s)

theorem cryptoDecrypt_cryptoEncrypt (f : Fernet) (b : B64) (s : String) (h : s ≠ "") :
    cryptoDecrypt f b (cryptoEncrypt f b s) = s := by
  have hne : b.encode (f.enc s) ≠ "" := b.encode_ne _ (f.enc_ne s)
  simp only [cryptoEncrypt, if_neg h]
  simp only [cryptoDecrypt, if_neg hne, b.decode_encode, f.dec_enc]

theorem lookup_encryptFields_ne (f : Fernet) (b : B64) (F : List (String × Json))
    (k j : String) (h : j ≠ k) :
    lookupField (encryptFields f b F k) j = lookupField F j := by
  unfold encryptFields
  cases h2 : lookupField F k with
  | none => rfl
  | some v =>
      by_cases ht : pyTruthy v <;> simp [ht, lookup_setField_ne _ _ _ _ h]

theorem lookup_encryptFields_str (f : Fernet) (b : B64) (F : List (String × Json))
    (k : String) (s : String) (hk : lookupField F k = some (.str s)) (hs : s ≠ "") :
    lookupField (encryptFields f b F k) k = some (.str (cryptoEncrypt f b s)) := by
  unfold encryptFields
  simp [hk, pyTruthy, hs, encryptJson, lookup_setField_self]

theorem encryptFields_falsy (f : Fernet) (b : B64) (F : List (String × Json))
    (k : String) (v : Json) (hk : lookupField F k = some v) (hv : pyTruthy v = false) :
    encryptFields f b F k = F := by
  unfold encryptFields
  simp [hk, hv]

theorem lookup_decryptFields_ne (f : Fernet) (b : B64) (F : List (String × Json))
    (k j : String) (h : j ≠ k) :
    lookupField (decryptFields f b F k) j = lookupField F j := by
  unfold decryptFields
  cases h2 : lookupField F k with
  | none => rfl
  | some v =>
      by_cases ht : pyTruthy v
      · by_cases hd : decryptJson f b v = "" <;>
          simp [ht, hd, lookup_setField_ne _ _ _ _ h]
      · simp [ht]

theorem lookup_decryptFields_str (f : Fernet) (b : B64) (F : List (String × Json))
    (k : String) (s : String) (hk : lookupField F k = some (.str s)) (hs : s ≠ "") :
    lookupField (decryptFields f b F k) k = some (.str (cryptoDecrypt f b s)) := by
  unfold decryptFields
  by_cases hd : cryptoDecrypt f b s = "" <;>
    simp [hk, pyTruthy, hs, decryptJson, hd, lookup_setField_self]

theorem decryptFields_falsy (f : Fernet) (b : B64) (F : List (String × Json))
    (k : String) (v : Json) (hk : lookupField F k = some v) (hv : pyTruthy v = false) :
    decryptFields f b F k = F := by
  unfold decryptFields
  simp [hk, hv]

theorem pyGet_default (keys : List String) (doc d : Json)
    (h : pathPresent doc keys = false) : pyGet doc keys d = d := by
  induction keys generalizing doc with
  | nil => cases doc <;> simp [pathPresent] at h
  | cons k rest ih =>
      cases doc with
      | obj fields =>
          cases h2 : lookupField fields k with
          | none => simp [pyGet, h2]
          | some v =>
              have h3 : pathPresent v rest = false := by
                simpa [pathPresent, h2] using h
              simp [pyGet, h2, ih v h3]
      | null => simp [pyGet]
      | bool b2 => simp [pyGet]
      | num n => simp [pyGet]
      | str s => simp [pyGet]
      | arr l => simp [pyGet]

theorem objPathOk_empty (k : String) (rest : List String) :
    objPathOk (.obj []) (k :: rest) = true := by
  cases rest <;> simp [objPathOk, lookupField]

theorem pySet_get (keys : List String) (v d : Json) (doc : Json)
    (hne : keys ≠ []) (h : objPathOk doc keys = true) :
    ∃ doc2, pySet doc keys v = .ok doc2 ∧ pyGet doc2 keys d = v := by
  induction keys generalizing doc with
  | nil => exact absurd rfl hne
  | cons k rest ih =>
      cases rest with
      | nil =>
          cases doc with
          | obj fields =>
              exact ⟨.obj (setField fields k v), rfl,
                by simp [pyGet_single, lookup_setField_self]⟩
          | null => simp [objPathOk] at h
          | bool b2 => simp [objPathOk] at h
          | num n => simp [objPathOk] at h
          | str s => simp [objPathOk] at h
          | arr l => simp [objPathOk] at h
      | cons k2 rest2 =>
          cases doc with
          | obj fields =>
              cases h2 : lookupField fields k with
              | some child =>
                  have hch : objPathOk child (k2 :: rest2) = true := by
                    simpa [objPathOk, h2] using h
                  obtain ⟨child2, hset, hget⟩ := ih child (by simp) hch
                  refine ⟨.obj (setField fields k child2), ?_, ?_⟩
                  · simp [pySet, h2, hset, Except.map]
                  · simp [pyGet, lookup_setField_self, hget]
              | none =>
                  obtain ⟨child2, hset, hget⟩ :=
                    ih (.obj []) (by simp) (objPathOk_empty k2 rest2)
                  refine ⟨.obj (setField fields k child2), ?_, ?_⟩
                  · simp [pySet, h2, hset, Except.map]
                  · simp [pyGet, lookup_setField_self, hget]
          | null => simp [objPathOk] at h
          | bool b2 => simp [objPathOk] at h
          | num n => simp [objPathOk] at h
          | str s => simp [objPathOk] at h
          | arr l => simp [objPathOk] at h

theorem pySet_pyRemove_ok (keys : List String) (v : Json) (doc : Json)
    (hne : keys ≠ []) (h : objPathOk doc keys = true) :
    (∃ doc2, pySet doc keys v = .ok doc2) ∧ (∃ r, pyRemove doc keys = .ok r) := by
  induction keys generalizing doc with
  | nil => exact absurd rfl hne
  | cons k rest ih =>
      cases rest with
      | nil =>
          cases doc with
          | obj fields =>
              refine ⟨⟨.obj (setField fields k v), rfl⟩, ?_⟩
              cases hc : containsField fields k with
              | true =>
                  exact ⟨(.obj (eraseField fields k), true),
                    by simp [pyRemove, pyIn, hc, Bind.bind, Except.bind]⟩
              | false =>
                  exact ⟨(.obj fields, false),
                    by simp [pyRemove, pyIn, hc, Bind.bind, Except.bind]⟩
          | null => simp [objPathOk] at h
          | bool b2 => simp [objPathOk] at h
          | num n => simp [objPathOk] at h
          | str s => simp [objPathOk] at h
          | arr l => simp [objPathOk] at h
      | cons k2 rest2 =>
          cases doc with
          | obj fields =>
              cases h2 : lookupField fields k with
              | some child =>
                  have hch : objPathOk child (k2 :: rest2) = true := by
                    simpa [objPathOk, h2] using h
                  obtain ⟨⟨d2, hs⟩, ⟨r, hr⟩⟩ := ih child (by simp) hch
                  have hc : containsField fields k = true := by
                    simp [containsField, h2]
                  constructor
                  · exact ⟨.obj (setField fields k d2), by simp [pySet, h2, hs, Except.map]⟩
                  · exact ⟨(.obj (setField fields k r.1), r.2),
                      by simp [pyRemove, pyIn, hc, h2, hr, Bind.bind, Except.bind, Except.map]⟩
              | none =>
                  have hc : containsField fields k = false := by
                    simp [containsField, h2]
                  constructor
                  · obtain ⟨⟨d2, hs⟩, _⟩ :=
                      ih (.obj []) (by simp) (objPathOk_empty k2 rest2)
                    exact ⟨.obj (setField fields k d2), by simp [pySet, h2, hs, Except.map]⟩
                  · exact ⟨(.obj fields, false),
                      by simp [pyRemove, pyIn, hc, Bind.bind, Except.bind]⟩
          | null => simp [objPathOk] at h
          | bool b2 => simp [objPathOk] at h
          | num n => simp [objPathOk] at h
          | str s => simp [objPathOk] at h
          | arr l => simp [objPathOk] at h

theorem saveConfig_ok (f : Fernet) (b : B64) (write : Json → Except PyErr Unit)
    (doc : Json) : saveConfig f b write doc = .ok () := by
  cases h : (do
      let saved ← saveTransform f b doc
      write saved : Except PyErr Unit) <;> simp [saveConfig, h]

/-! ## Claim theorems -/

/-- C5: for every dotted path and default, if some segment of the path is
absent from the in-memory document or an intermediate value along it is
not a mapping (i.e. the path is not present), `get(path, default)`
returns the default; `pyGet` is total, so no exception is possible. -/
theorem spec_c5 (doc : Json) (path : String) (d : Json)
    (h : pathPresent doc (splitKey path) = false) :
    ConfigService.get doc path d = d :=
  pyGet_default _ _ _ h

theorem spec_c5_witness :
    pathPresent (Json.obj []) (splitKey "settings.timeout") = false ∧
    ConfigService.get (Json.obj []) "settings.timeout" (Json.num 7) = Json.num 7 :=
  ⟨by decide, spec_c5 (Json.obj []) "settings.timeout" (Json.num 7) (by decide)⟩

/-- C6: for every dotted path whose intermediate segments are absent or
resolve to mappings, `set(path, v)` succeeds and a subsequent
`get(path, d)` returns `v` for any default `d`. -/
theorem spec_c6 (doc : Json) (path : String) (v d : Json)
    (h : objPathOk doc (splitKey path) = true) :
    ∃ doc2, ConfigService.set doc path v = .ok doc2 ∧
      ConfigService.get doc2 path d = v :=
  pySet_get _ _ _ _ (splitKey_ne_nil path) h

theorem spec_c6_witness :
    objPathOk ConfigService.get_defaults (splitKey "settings.timeout") = true ∧
    ∃ doc2, ConfigService.set ConfigService.get_defaults "settings.timeout" (Json.num 45) = .ok doc2 ∧
      ConfigService.get doc2 "settings.timeout" (Json.num 0) = Json.num 45 :=
  ⟨by decide, spec_c6 ConfigService.get_defaults "settings.timeout" (Json.num 45) (Json.num 0) (by decide)⟩

/-- C4, counterexample to the claim as stated: on the document
`{"a": "hello"}` the path `"a.b"` makes `set` raise `TypeError`
(assigning into a string), and the path `"a.ell"` makes `remove` raise
`TypeError` (`"ell" in "hello"` succeeds, then `del` on a string): the
store does not absorb these traversal errors. -/
theorem spec_c4_counterexample :
    ConfigService.set (Json.obj [("a", Json.str "hello")]) "a.b" (Json.num 1) =
      .error PyErr.typeError ∧
    ConfigService.remove (Json.obj [("a", Json.str "hello")]) "a.ell" =
      .error PyErr.typeError :=
  ⟨rfl, rfl⟩

/-- C4 as amended: `set(path, value)` and `remove(path)` complete without
raising whenever the document is a mapping and every intermediate segment
of the path is absent or resolves to a mapping; when an intermediate
resolves to an existing non-mapping value they can raise `TypeError`. -/
theorem spec_c4 (doc : Json) (path : String) (v : Json)
    (h : objPathOk doc (splitKey path) = true) :
    (∃ doc2, ConfigService.set doc path v = .ok doc2) ∧
    (∃ r, ConfigService.remove doc path = .ok r) :=
  pySet_pyRemove_ok _ _ _ (splitKey_ne_nil path) h

theorem spec_c4_witness :
    objPathOk ConfigService.get_defaults (splitKey "settings.timeout") = true ∧
    ((∃ doc2, ConfigService.set ConfigService.get_defaults "settings.timeout" (Json.num 9) = .ok doc2) ∧
     (∃ r, ConfigService.remove ConfigService.get_defaults "settings.timeout" = .ok r)) :=
  ⟨by decide, spec_c4 ConfigService.get_defaults "settings.timeout" (Json.num 9) (by decide)⟩

/-- C3, counterexample to the claim as stated: with a filesystem write
that raises `PermissionError`, the mutating operation still returns
normally -- `_save_config` catches every exception and only prints, so
the failure does not propagate to the caller. -/
theorem spec_c3_counterexample :
    writeDenied (Json.obj [("a", Json.num 1)]) = .error PyErr.permissionError ∧
    ConfigService.setAndSave fernetX b64Id writeDenied (Json.obj []) "a" (Json.num 1) =
      .ok (Json.obj [("a", Json.num 1)]) :=
  ⟨rfl, rfl⟩

/-- C3 as amended: a filesystem failure on the final write never
propagates to the caller of a mutating operation: whenever the in-memory
mutation succeeds, the operation returns normally for every write
behaviour, the error being swallowed (and printed) inside
`_save_config`. -/
theorem spec_c3 (f : Fernet) (b : B64) (write : Json → Except PyErr Unit)
    (doc : Json) (path : String) (v doc2 : Json)
    (h : ConfigService.set doc path v = .ok doc2) :
    ConfigService.setAndSave f b write doc path v = .ok doc2 := by
  simp [ConfigService.setAndSave, h, saveConfig_ok, Bind.bind, Except.bind]

theorem spec_c3_witness :
    ConfigService.set (Json.obj [("b", Json.num 2)]) "c" (Json.str "z") =
      .ok (Json.obj [("b", Json.num 2), ("c", Json.str "z")]) ∧
    ConfigService.setAndSave fernetX b64Id writeDenied (Json.obj [("b", Json.num 2)]) "c" (Json.str "z") =
      .ok (Json.obj [("b", Json.num 2), ("c", Json.str "z")]) :=
  ⟨rfl, spec_c3 fernetX b64Id writeDenied (Json.obj [("b", Json.num 2)]) "c"
    (Json.str "z") (Json.obj [("b", Json.num 2), ("c", Json.str "z")]) rfl⟩

/-- C9: `remove_prompt(i)` with `i < 0` or `i >= len(prompts)` leaves the
document unchanged and raises no exception. -/
theorem spec_c9 (doc : Json) (prompts : List Json) (i : Int)
    (hp : ConfigService.get_prompts doc = .arr prompts)
    (h : i < 0 ∨ (prompts.length : Int) ≤ i) :
    ConfigService.remove_prompt doc i = .ok doc := by
  unfold ConfigService.remove_prompt
  rw [hp]
  rcases h with h | h
  · rw [if_neg (by omega)]
  · rw [if_pos (by omega)]
    simp only [pyLen, Bind.bind, Except.bind]
    rw [if_neg (by omega)]

theorem spec_c9_witness :
    ConfigService.get_prompts
        (Json.obj [("prompts", Json.arr [Json.str "a", Json.str "b", Json.str "c"])]) =
      .arr [Json.str "a", Json.str "b", Json.str "c"] ∧
    ConfigService.remove_prompt
        (Json.obj [("prompts", Json.arr [Json.str "a", Json.str "b", Json.str "c"])]) (-1) =
      .ok (Json.obj [("prompts", Json.arr [Json.str "a", Json.str "b", Json.str "c"])]) ∧
    ConfigService.remove_prompt
        (Json.obj [("prompts", Json.arr [Json.str "a", Json.str "b", Json.str "c"])]) 999 =
      .ok (Json.obj [("prompts", Json.arr [Json.str "a", Json.str "b", Json.str "c"])]) :=
  ⟨rfl,
   spec_c9 _ [Json.str "a", Json.str "b", Json.str "c"] (-1) rfl (Or.inl (by decide)),
   spec_c9 _ [Json.str "a", Json.str "b", Json.str "c"] 999 rfl (Or.inr (by decide))⟩

theorem take_append_take (n : Nat) (xs ys : List Json) :
    (xs ++ ys.take n).take n = (xs ++ ys).take n := by
  rw [List.take_append_eq_append_take, List.take_append_eq_append_take,
      List.take_take, Nat.min_eq_left (Nat.sub_le n xs.length)]

theorem get_single_obj (fields : List (String × Json)) (k : String) (d : Json)
    (hk : splitKey k = [k]) :
    ConfigService.get (.obj fields) k d = (lookupField fields k).getD d := by
  show pyGet (.obj fields) (splitKey k) d = _
  rw [hk, pyGet_single]

theorem add_generation_obj (fields : List (String × Json)) (recent : List Json) (g : Json)
    (h : ConfigService.get (.obj fields) "recent_generations" (.arr []) = .arr recent) :
    ConfigService.add_generation (.obj fields) g =
      .ok (.obj (setField fields "recent_generations" (.arr ((g :: recent).take 50)))) := by
  unfold ConfigService.add_generation
  rw [h]
  rfl

theorem addGenerations_obj (gs : List Json) (fields : List (String × Json))
    (recent : List Json)
    (h : lookupField fields "recent_generations" = some (.arr recent))
    (hlen : recent.length ≤ 50) :
    ∃ fields2, ConfigService.addGenerations (.obj fields) gs = .ok (.obj fields2) ∧
      lookupField fields2 "recent_generations" =
        some (.arr ((gs.reverse ++ recent).take 50)) := by
  induction gs generalizing fields recent with
  | nil =>
      refine ⟨fields, rfl, ?_⟩
      rw [h, List.reverse_nil, List.nil_append, List.take_of_length_le hlen]
  | cons g gs ih =>
      have hget : ConfigService.get (.obj fields) "recent_generations" (.arr []) = .arr recent := by
        rw [get_single_obj fields "recent_generations" (.arr []) rfl, h]
        rfl
      have hstep := add_generation_obj fields recent g hget
      have h1 : lookupField (setField fields "recent_generations"
          (.arr ((g :: recent).take 50))) "recent_generations" =
          some (.arr ((g :: recent).take 50)) := lookup_setField_self _ _ _
      have hlen1 : ((g :: recent).take 50).length ≤ 50 := List.length_take_le _ _
      obtain ⟨fields2, hrun, hlook⟩ := ih _ _ h1 hlen1
      refine ⟨fields2, ?_, ?_⟩
      · show (g :: gs).foldlM ConfigService.add_generation (.obj fields) = .ok (.obj fields2)
        rw [List.foldlM_cons, hstep]
        simpa [Bind.bind, Except.bind, ConfigService.addGenerations] using hrun
      · rw [hlook]
        rw [take_append_take, List.reverse_cons, List.append_assoc]
        rfl

/-- C7: `add_generation(r)` on a document whose recent-generations value
is a sequence of length at most 50 places `r` at index 0 and leaves
min(previous length + 1, 50) entries, never more than 50; and 60
successive calls on the default (empty-history) document leave exactly
the 50 most recently added records, most recent first. -/
theorem spec_c7 :
    (∀ (fields : List (String × Json)) (recent : List Json) (g : Json),
      ConfigService.get (.obj fields) "recent_generations" (.arr []) = .arr recent →
      recent.length ≤ 50 →
      ∃ fields2,
        ConfigService.add_generation (.obj fields) g = .ok (.obj fields2) ∧
        ConfigService.get (.obj fields2) "recent_generations" (.arr []) =
          .arr ((g :: recent).take 50) ∧
        ((g :: recent).take 50).head? = some g ∧
        ((g :: recent).take 50).length = min (recent.length + 1) 50 ∧
        ((g :: recent).take 50).length ≤ 50) ∧
    (∀ gs : List Json, gs.length = 60 →
      ∃ fields2,
        ConfigService.addGenerations ConfigService.get_defaults gs = .ok (.obj fields2) ∧
        ConfigService.get (.obj fields2) "recent_generations" (.arr []) =
          .arr (gs.reverse.take 50) ∧
        (gs.reverse.take 50).length = 50) := by
  constructor
  · intro fields recent g hget hlen
    refine ⟨setField fields "recent_generations" (.arr ((g :: recent).take 50)),
      add_generation_obj fields recent g hget, ?_, rfl, ?_, List.length_take_le _ _⟩
    · rw [get_single_obj _ "recent_generations" (.arr []) rfl, lookup_setField_self]
      rfl
    · rw [List.length_take, List.length_cons]
      omega
  · intro gs hlen
    obtain ⟨fields2, hrun, hlook⟩ :=
      addGenerations_obj gs ConfigService.defaultFields [] rfl (by simp)
    refine ⟨fields2, hrun, ?_, ?_⟩
    · rw [get_single_obj _ "recent_generations" (.arr []) rfl, hlook, List.append_nil]
      rfl
    · rw [List.length_take, List.length_reverse, hlen]
      rfl

theorem spec_c7_witness :
    ((List.range 60).map fun n => Json.num n).length = 60 ∧
    (∃ fields2,
      ConfigService.addGenerations ConfigService.get_defaults
          ((List.range 60).map fun n => Json.num n) = .ok (.obj fields2) ∧
      ConfigService.get (.obj fields2) "recent_generations" (.arr []) =
        .arr (((List.range 60).map fun n => Json.num n).reverse.take 50) ∧
      (((List.range 60).map fun n => Json.num n).reverse.take 50).length = 50) :=
  ⟨by decide,
   spec_c7.2 ((List.range 60).map fun n => Json.num n) (by decide)⟩

theorem set_single_obj (fields : List (String × Json)) (k : String) (v : Json)
    (hk : splitKey k = [k]) :
    ConfigService.set (.obj fields) k v = .ok (.obj (setField fields k v)) := by
  show pySet (.obj fields) (splitKey k) v = _
  rw [hk]
  rfl

/-- C8: `add_prompt(t)` is a no-op (raising nothing) when `t` is the
empty string or already an element of the prompts sequence; adding the
same non-empty text twice to an initially empty prompts sequence yields
a one-element sequence. -/
theorem spec_c8 :
    (∀ doc : Json, ConfigService.add_prompt doc "" = .ok doc) ∧
    (∀ (doc : Json) (prompts : List Json) (t : String),
      ConfigService.get_prompts doc = .arr prompts →
      Json.str t ∈ prompts →
      ConfigService.add_prompt doc t = .ok doc) ∧
    (∀ (fields : List (String × Json)) (t : String), t ≠ "" →
      lookupField fields "prompts" = some (.arr []) →
      ∃ fields2,
        ConfigService.add_prompt (.obj fields) t = .ok (.obj fields2) ∧
        ConfigService.add_prompt (.obj fields2) t = .ok (.obj fields2) ∧
        ConfigService.get_prompts (.obj fields2) = .arr [Json.str t]) := by
  refine ⟨?_, ?_, ?_⟩
  · intro doc
    simp [ConfigService.add_prompt]
  · intro doc prompts t hp hmem
    by_cases ht : t = ""
    · subst ht
      simp [ConfigService.add_prompt]
    · have hdup : pyIn t (.arr prompts) = .ok true := by
        simp only [pyIn, Except.ok.injEq]
        rw [List.any_eq_true]
        exact ⟨Json.str t, hmem, by simp⟩
      simp [ConfigService.add_prompt, hp, ht, hdup, Bind.bind, Except.bind]
  · intro fields t ht hlk
    have hgp : ConfigService.get_prompts (.obj fields) = .arr [] := by
      unfold ConfigService.get_prompts
      rw [get_single_obj _ "prompts" (.arr []) rfl, hlk]
      rfl
    have hs := set_single_obj fields "prompts" (.arr [Json.str t]) rfl
    have h1 : ConfigService.add_prompt (.obj fields) t =
        .ok (.obj (setField fields "prompts" (.arr [Json.str t]))) := by
      simp [ConfigService.add_prompt, hgp, ht, pyIn, Bind.bind, Except.bind, hs]
    have hgp2 : ConfigService.get_prompts
        (.obj (setField fields "prompts" (.arr [Json.str t]))) = .arr [Json.str t] := by
      unfold ConfigService.get_prompts
      rw [get_single_obj _ "prompts" (.arr []) rfl, lookup_setField_self]
      rfl
    have h2 : ConfigService.add_prompt
        (.obj (setField fields "prompts" (.arr [Json.str t]))) t =
        .ok (.obj (setField fields "prompts" (.arr [Json.str t]))) := by
      simp [ConfigService.add_prompt, hgp2, ht, pyIn, Bind.bind, Except.bind]
    exact ⟨_, h1, h2, hgp2⟩

theorem spec_c8_witness :
    ("hi" : String) ≠ "" ∧
    lookupField [("prompts", Json.arr [])] "prompts" = some (.arr []) ∧
    (∃ fields2,
      ConfigService.add_prompt (.obj [("prompts", Json.arr [])]) "hi" = .ok (.obj fields2) ∧
      ConfigService.add_prompt (.obj fields2) "hi" = .ok (.obj fields2) ∧
      ConfigService.get_prompts (.obj fields2) = .arr [Json.str "hi"]) :=
  ⟨by decide, rfl, spec_c8.2.2 [("prompts", Json.arr [])] "hi" (by decide) rfl⟩

theorem loadConfig_obj (f : Fernet) (b : B64) (F : List (String × Json)) :
    loadConfig f b (some (.obj F)) =
      .obj (decryptFields f b (decryptFields f b F "api_token") "google_password") := by
  simp [loadConfig, loadTransform_obj]

theorem secure_key_roundtrip (f : Fernet) (b : B64) (F : List (String × Json))
    (key : String) (v : String)
    (hkey : key = "api_token" ∨ key = "google_password")
    (hk : lookupField F key = some (.str v)) (hv : v ≠ "") :
    lookupField (decryptFields f b (decryptFields f b
        (encryptFields f b (encryptFields f b F "api_token") "google_password")
        "api_token") "google_password") key = some (.str v) := by
  have hc : cryptoEncrypt f b v ≠ "" := cryptoEncrypt_ne f b v hv
  rcases hkey with h | h <;> subst h
  · have e1 := lookup_encryptFields_str f b F "api_token" v hk hv
    have e2 : lookupField (encryptFields f b (encryptFields f b F "api_token")
        "google_password") "api_token" = some (.str (cryptoEncrypt f b v)) := by
      rw [lookup_encryptFields_ne f b _ "google_password" "api_token" (by decide), e1]
    have d1 := lookup_decryptFields_str f b _ "api_token" (cryptoEncrypt f b v) e2 hc
    rw [cryptoDecrypt_cryptoEncrypt f b v hv] at d1
    rw [lookup_decryptFields_ne f b _ "google_password" "api_token" (by decide), d1]
  · have e1 : lookupField (encryptFields f b F "api_token") "google_password" =
        some (.str v) := by
      rw [lookup_encryptFields_ne f b F "api_token" "google_password" (by decide), hk]
    have e2 := lookup_encryptFields_str f b _ "google_password" v e1 hv
    have d1 : lookupField (decryptFields f b (encryptFields f b
        (encryptFields f b F "api_token") "google_password") "api_token")
        "google_password" = some (.str (cryptoEncrypt f b v)) := by
      rw [lookup_decryptFields_ne f b _ "api_token" "google_password" (by decide), e2]
    have d2 := lookup_decryptFields_str f b _ "google_password" (cryptoEncrypt f b v) d1 hc
    rw [cryptoDecrypt_cryptoEncrypt f b v hv] at d2
    exact d2

/-- C1: for every non-empty value and each of the two secure fields,
`set_secure` followed by the `_save_config` encryption pass, then a
reload of the persisted document on the same machine (same Fernet key,
same coding), then `get_secure`, returns the original value: encryption
on save and decryption on load are mutually inverse. -/
theorem spec_c1 (f : Fernet) (b : B64) (fields : List (String × Json))
    (key : String) (v : String)
    (hkey : key = "api_token" ∨ key = "google_password") (hv : v ≠ "") :
    ∃ doc1 saved,
      ConfigService.set_secure (.obj fields) key v = .ok doc1 ∧
      saveTransform f b doc1 = .ok saved ∧
      ConfigService.get_secure (loadConfig f b (some saved)) key = .str v := by
  have hsplit : splitKey key = [key] := by
    rcases hkey with h | h <;> subst h <;> rfl
  refine ⟨.obj (setField fields key (.str v)),
    .obj (encryptFields f b (encryptFields f b (setField fields key (.str v))
      "api_token") "google_password"), ?_, saveTransform_obj f b _, ?_⟩
  · exact set_single_obj fields key (.str v) hsplit
  · have hrt := secure_key_roundtrip f b (setField fields key (.str v)) key v hkey
      (lookup_setField_self _ _ _) hv
    unfold ConfigService.get_secure
    rw [loadConfig_obj, get_single_obj _ key (.str "") hsplit, hrt]
    rfl

theorem spec_c1_witness :
    ("abc123" : String) ≠ "" ∧
    (∃ doc1 saved,
      ConfigService.set_secure (.obj []) "api_token" "abc123" = .ok doc1 ∧
      saveTransform fernetX b64Id doc1 = .ok saved ∧
      ConfigService.get_secure (loadConfig fernetX b64Id (some saved)) "api_token" =
        .str "abc123") :=
  ⟨by decide, spec_c1 fernetX b64Id [] "api_token" "abc123" (Or.inl rfl) (by decide)⟩

/-- C2, counterexample to the claim as stated: in a persisted document
whose `api_token` ciphertext is corrupted, the OTHER secure field
(`google_password`, holding a valid ciphertext) does not retain the
value parsed from the file -- the load pass replaces it by its
decryption -- so not every other key keeps its parsed value. -/
theorem spec_c2_counterexample :
    cryptoDecrypt fernetX b64Id "zzz" = "" ∧
    loadConfig fernetX b64Id (some (.obj [("api_token", Json.str "zzz"),
        ("google_password", Json.str "xpw"), ("other", Json.num 3)])) =
      .obj [("api_token", Json.str ""), ("google_password", Json.str "pw"),
        ("other", Json.num 3)] ∧
    ConfigService.get (loadConfig fernetX b64Id (some (.obj [("api_token", Json.str "zzz"),
        ("google_password", Json.str "xpw"), ("other", Json.num 3)])))
        "google_password" .null ≠
      ConfigService.get (.obj [("api_token", Json.str "zzz"),
        ("google_password", Json.str "xpw"), ("other", Json.num 3)])
        "google_password" .null := by
  refine ⟨rfl, rfl, ?_⟩
  intro h
  have h2 : Json.str "pw" = Json.str "xpw" := h
  injection h2 with h3
  exact absurd h3 (by decide)

/-- C2 as amended: when a secure field of the persisted document holds a
non-empty string whose decryption fails, loading sets that field to the
empty string without raising, and every key other than the two secure
fields retains the value parsed from the file (the other secure field is
processed by decryption as usual). -/
theorem spec_c2 (f : Fernet) (b : B64) (fields : List (String × Json))
    (key : String) (c : String)
    (hkey : key = "api_token" ∨ key = "google_password")
    (hk : lookupField fields key = some (.str c)) (hc : c ≠ "")
    (hfail : cryptoDecrypt f b c = "") :
    ∃ fields2,
      loadTransform f b (.obj fields) = .ok (.obj fields2) ∧
      loadConfig f b (some (.obj fields)) = .obj fields2 ∧
      lookupField fields2 key = some (.str "") ∧
      ∀ j, j ≠ "api_token" → j ≠ "google_password" →
        lookupField fields2 j = lookupField fields j := by
  refine ⟨decryptFields f b (decryptFields f b fields "api_token") "google_password",
    loadTransform_obj f b fields, loadConfig_obj f b fields, ?_, ?_⟩
  · rcases hkey with h | h <;> subst h
    · have d1 := lookup_decryptFields_str f b fields "api_token" c hk hc
      rw [hfail] at d1
      rw [lookup_decryptFields_ne f b _ "google_password" "api_token" (by decide), d1]
    · have e1 : lookupField (decryptFields f b fields "api_token") "google_password" =
          some (.str c) := by
        rw [lookup_decryptFields_ne f b fields "api_token" "google_password" (by decide), hk]
      have d1 := lookup_decryptFields_str f b _ "google_password" c e1 hc
      rw [hfail] at d1
      exact d1
  · intro j hj1 hj2
    rw [lookup_decryptFields_ne f b _ "google_password" j hj2,
        lookup_decryptFields_ne f b fields "api_token" j hj1]

theorem spec_c2_witness :
    lookupField [("api_token", Json.str "zzz"), ("other", Json.num 3)] "api_token" =
      some (Json.str "zzz") ∧
    cryptoDecrypt fernetX b64Id "zzz" = "" ∧
    (∃ fields2,
      loadTransform fernetX b64Id (.obj [("api_token", Json.str "zzz"),
        ("other", Json.num 3)]) = .ok (.obj fields2) ∧
      loadConfig fernetX b64Id (some (.obj [("api_token", Json.str "zzz"),
        ("other", Json.num 3)])) = .obj fields2 ∧
      lookupField fields2 "api_token" = some (.str "") ∧
      ∀ j, j ≠ "api_token" → j ≠ "google_password" →
        lookupField fields2 j =
          lookupField [("api_token", Json.str "zzz"), ("other", Json.num 3)] j) :=
  ⟨rfl, rfl, spec_c2 fernetX b64Id [("api_token", Json.str "zzz"), ("other", Json.num 3)]
    "api_token" "zzz" (Or.inl rfl) rfl (by decide) rfl⟩

theorem lookup_encPass_empty (f : Fernet) (b : B64) (F : List (String × Json))
    (key : String) (hkey : key = "api_token" ∨ key = "google_password")
    (hk : lookupField F key = some (.str "")) :
    lookupField (encryptFields f b (encryptFields f b F "api_token")
      "google_password") key = some (.str "") := by
  have hfalsy : pyTruthy (Json.str "") = false := rfl
  rcases hkey with h | h <;> subst h
  · rw [lookup_encryptFields_ne f b _ "google_password" "api_token" (by decide),
        encryptFields_falsy f b F "api_token" _ hk hfalsy, hk]
  · have e1 : lookupField (encryptFields f b F "api_token") "google_password" =
        some (.str "") := by
      rw [lookup_encryptFields_ne f b F "api_token" "google_password" (by decide), hk]
    rw [encryptFields_falsy f b _ "google_password" _ e1 hfalsy, e1]

theorem lookup_decPass_empty (f : Fernet) (b : B64) (F : List (String × Json))
    (key : String) (hkey : key = "api_token" ∨ key = "google_password")
    (hk : lookupField F key = some (.str "")) :
    lookupField (decryptFields f b (decryptFields f b F "api_token")
      "google_password") key = some (.str "") := by
  have hfalsy : pyTruthy (Json.str "") = false := rfl
  rcases hkey with h | h <;> subst h
  · rw [lookup_decryptFields_ne f b _ "google_password" "api_token" (by decide),
        decryptFields_falsy f b F "api_token" _ hk hfalsy, hk]
  · have e1 : lookupField (decryptFields f b F "api_token") "google_password" =
        some (.str "") := by
      rw [lookup_decryptFields_ne f b F "api_token" "google_password" (by decide), hk]
    rw [decryptFields_falsy f b _ "google_password" _ e1 hfalsy, e1]

/-- C10: `encrypt` and `decrypt` map the empty string to itself for
every cipher and coding (the guards short-circuit before any cipher
use), and a secure field holding the empty string is written to the
backing file as the plain empty string and reloads as the empty string
under any (even different) machine key. -/
theorem spec_c10 :
    (∀ (f : Fernet) (b : B64), cryptoEncrypt f b "" = "" ∧ cryptoDecrypt f b "" = "") ∧
    (∀ (f : Fernet) (b : B64) (f2 : Fernet) (b2 : B64)
      (fields : List (String × Json)) (key : String),
      (key = "api_token" ∨ key = "google_password") →
      lookupField fields key = some (.str "") →
      ∃ saved,
        saveTransform f b (.obj fields) = .ok (.obj saved) ∧
        lookupField saved key = some (.str "") ∧
        ∃ fields2,
          loadTransform f2 b2 (.obj saved) = .ok (.obj fields2) ∧
          lookupField fields2 key = some (.str "")) := by
  constructor
  · intro f b
    exact ⟨by simp [cryptoEncrypt], by simp [cryptoDecrypt]⟩
  · intro f b f2 b2 fields key hkey hk
    have hsaved := lookup_encPass_empty f b fields key hkey hk
    exact ⟨encryptFields f b (encryptFields f b fields "api_token") "google_password",
      saveTransform_obj f b fields, hsaved,
      decryptFields f2 b2 (decryptFields f2 b2 (encryptFields f b
        (encryptFields f b fields "api_token") "google_password") "api_token")
        "google_password",
      loadTransform_obj f2 b2 _,
      lookup_decPass_empty f2 b2 _ key hkey hsaved⟩

theorem spec_c10_witness :
    lookupField [("api_token", Json.str ""), ("google_password", Json.str "pw")]
      "api_token" = some (Json.str "") ∧
    (∃ saved,
      saveTransform fernetX b64Id (.obj [("api_token", Json.str ""),
        ("google_password", Json.str "pw")]) = .ok (.obj saved) ∧
      lookupField saved "api_token" = some (.str "") ∧
      ∃ fields2,
        loadTransform fernetY b64Id (.obj saved) = .ok (.obj fields2) ∧
        lookupField fields2 "api_token" = some (.str "")) :=
  ⟨rfl, spec_c10.2 fernetX b64Id fernetY b64Id
    [("api_token", Json.str ""), ("google_password", Json.str "pw")]
    "api_token" (Or.inl rfl) rfl⟩
